import Mathlib

/-!
# Verification of the GimletD gitops-worker core

Shallow embedding of the policy engine (`deployTrigger`, `cleanupTrigger`),
the template engine (`Manifest.ResolveVars`, `sanitizeDNSName`), the worker
event-processing flow (`processEvent` rollback arm, `processReleaseEvent`,
`processBranchDeletedEvent` / `cloneTemplateDeleteAndPush`) and the event
bookkeeping (`setGitopsHashOnEvent`, `updateEvent`), translated from the Go
sources of the repository.  Go strings are modelled as Lean `String`;
Go nil pointers as `Option`; a Go runtime panic as the `none` value of an
`Option` result.
-/

/-- Git event kinds of `dx.GitEvent` (`push`, `pr`, `tag`, `branchDeleted`). -/
inductive GitEvent where
  | push
  | pr
  | tag
  | branchDeleted
deriving DecidableEq, Repr

/-- `dx.Version`: the releasable version metadata carried by an artifact. -/
structure Version where
  repositoryName : String := ""
  sha : String := ""
  created : Int := 0
  branch : String := ""
  event : GitEvent := .push
  sourceBranch : String := ""
  targetBranch : String := ""
  tag : String := ""
  authorName : String := ""
  authorEmail : String := ""
  committerName : String := ""
  committerEmail : String := ""
  message : String := ""
  url : String := ""
deriving DecidableEq, Repr

/-- `dx.Deploy`: the deploy policy of a manifest.  A Go `*GitEvent` nil
pointer is `none`. -/
structure Deploy where
  tag : String := ""
  branch : String := ""
  event : Option GitEvent := none
deriving DecidableEq, Repr

/-- `dx.CleanupEvent`: the only cleanup event kind is `branchDeleted`. -/
inductive CleanupEvent where
  | branchDeleted
deriving DecidableEq, Repr

/-- `dx.Cleanup`: the cleanup policy of a manifest (`AppToCleanup` is the
`app:` yaml field). -/
structure Cleanup where
  appToCleanup : String := ""
  event : CleanupEvent := .branchDeleted
  branch : String := ""
deriving DecidableEq, Repr

/-- `dx.Chart`: chart coordinates of a manifest. -/
structure Chart where
  repository : String := ""
  name : String := ""
  version : String := ""
deriving DecidableEq, Repr

/-- `dx.Manifest`.  Go's `map[string]interface{}` values are modelled as an
association list of the string leaves (the only values the template engine
substitutes into). -/
structure Manifest where
  app : String := ""
  env : String := ""
  namespaceField : String := ""
  deploy : Option Deploy := none
  cleanup : Option Cleanup := none
  chart : Chart := {}
  values : List (String × String) := []
  strategicMergePatches : String := ""
  json6902Patches : String := ""
deriving DecidableEq, Repr

/-- A value of a `map[string]interface{}` entry in `Artifact.Items`:
either a Go string or some non-string JSON value (dropped by `Vars`). -/
inductive ItemValue where
  | str (s : String)
  | nonString
deriving DecidableEq, Repr

/-- `dx.Artifact`. -/
structure Artifact where
  id : String := ""
  created : Int := 0
  version : Version := {}
  context : List (String × String) := []
  environments : List Manifest := []
  items : List (List (String × ItemValue)) := []
deriving Repr

/-- `Artifact.Vars()`: copy all `context` entries, then overlay the
string-typed entries of each `items` map.  A Go map write is modelled by
appending; lookups take the last binding. -/
def Artifact.varsOf (a : Artifact) : List (String × String) :=
  a.context ++ (a.items.flatMap (fun m =>
    m.filterMap (fun kv =>
      match kv.2 with
      | .str s => some (kv.1, s)
      | .nonString => none)))

/-- Last-write-wins lookup in the modelled Go map. -/
def lookupVar (vars : List (String × String)) (k : String) : Option String :=
  (vars.reverse.find? (fun kv => kv.1 = k)).map (·.2)

/-- `strings.HasPrefix`, on the character lists of the strings. -/
def goHasPrefix (s p : String) : Bool :=
  p.data.isPrefixOf s.data

/-- Go's `s[1:]` on an ASCII string, dropping the first character. -/
def goDropOne (s : String) : String :=
  String.mk (s.data.drop 1)

/-! ## Glob engine

Modelled from the `gobwas/glob` library used by the triggers: shell-style
patterns with `*`, `?` and `[...]` character classes.  An unterminated `[`
is a compile error, on which `glob.MustCompile` panics.  Character classes
are modelled as literal character sets (no claim exercises range matching);
compilation failure on an unclosed class is what the claims need. -/

/-- One compiled glob token. -/
inductive GlobPart where
  | lit (c : Char)
  | star
  | anyOne
  | cls (negated : Bool) (cs : List Char)
deriving DecidableEq, Repr

/-- Scanner for `glob.Compile`: the first argument is `some acc` while
inside a `[...]` character class (with the class characters read so far),
`none` otherwise.  Result `none` is a compile error (unterminated `[`). -/
def globParseAux : Option (List Char) → List Char → Option (List GlobPart)
  | none, [] => some []
  | some _, [] => none
  | none, '*' :: rest => (globParseAux none rest).map (GlobPart.star :: ·)
  | none, '?' :: rest => (globParseAux none rest).map (GlobPart.anyOne :: ·)
  | none, '[' :: rest => globParseAux (some []) rest
  | none, c :: rest => (globParseAux none rest).map (GlobPart.lit c :: ·)
  | some acc, ']' :: rest =>
    let negated := acc.head? = some '!'
    let cs := if negated then acc.tail else acc
    (globParseAux none rest).map (GlobPart.cls negated cs :: ·)
  | some acc, c :: rest => globParseAux (some (acc ++ [c])) rest

/-- `glob.Compile`: `none` is a compile error (unterminated `[`). -/
def globParse (l : List Char) : Option (List GlobPart) :=
  globParseAux none l

/-- Glob matching over the compiled token list. -/
def globMatchL : List GlobPart → List Char → Bool
  | [], [] => true
  | [], _ :: _ => false
  | .star :: ps, s =>
    globMatchL ps s ||
      (match s with
       | [] => false
       | _ :: rest => globMatchL (.star :: ps) rest)
  | .lit c :: ps, d :: rest => c = d && globMatchL ps rest
  | .lit _ :: _, [] => false
  | .anyOne :: ps, _ :: rest => globMatchL ps rest
  | .anyOne :: _, [] => false
  | .cls neg cs :: ps, d :: rest => (neg != cs.contains d) && globMatchL ps rest
  | .cls _ _ :: _, [] => false
termination_by ps s => (ps.length, s.length)

/-- `glob.Glob.Match` on strings after a successful compile. -/
def globMatch (pattern value : String) : Option Bool :=
  (globParse pattern.data).map (fun g => globMatchL g value.data)

/-! ## Policy engine (`worker/process.go`)

`deployTrigger` and `cleanupTrigger` call `glob.MustCompile`, which panics
on an invalid pattern; the panic is modelled as result `none`. -/

/-- `worker.deployTrigger(artifactToCheck, deployPolicy)`, translated
line by line from the source, including the tag block's use of
`deployPolicy.Branch` as the initial exact-comparison value and its
compilation of the unstripped `deployPolicy.Tag`. -/
def deployTrigger (artifactToCheck : Artifact) (deployPolicy : Option Deploy) :
    Option Bool :=
  match deployPolicy with
  | none => some false
  | some dp =>
    if dp.branch = "" ∧ dp.event = none ∧ dp.tag = "" then
      some false
    else if dp.branch ≠ "" ∧
        (dp.event = none ∨ (dp.event ≠ some .push ∧ dp.event ≠ some .pr)) then
      some false
    else if dp.tag ≠ "" ∧ (dp.event = none ∨ dp.event ≠ some .tag) then
      some false
    else
      -- tag block
      let tagStep : Option Bool :=
        if dp.tag ≠ "" then
          let negate := goHasPrefix dp.tag "!"
          let tag := if negate then goDropOne dp.tag else dp.branch
          match globMatch dp.tag artifactToCheck.version.tag with
          | none => none  -- MustCompile panics
          | some patternMatch =>
            let exactMatch := tag = artifactToCheck.version.tag
            let isMatch := exactMatch || patternMatch
            if negate && isMatch then some false
            else if !negate && !isMatch then some false
            else some true
        else some true
      match tagStep with
      | none => none
      | some false => some false
      | some true =>
        -- branch block
        let branchStep : Option Bool :=
          if dp.branch ≠ "" then
            let negate := goHasPrefix dp.branch "!"
            let branch := if negate then goDropOne dp.branch else dp.branch
            match globMatch branch artifactToCheck.version.branch with
            | none => none  -- MustCompile panics
            | some patternMatch =>
              let exactMatch := branch = artifactToCheck.version.branch
              let isMatch := exactMatch || patternMatch
              if negate && isMatch then some false
              else if !negate && !isMatch then some false
              else some true
          else some true
        match branchStep with
        | none => none
        | some false => some false
        | some true =>
          match dp.event with
          | some e =>
            if e ≠ artifactToCheck.version.event then some false else some true
          | none => some true

/-- `worker.cleanupTrigger(branch, cleanupPolicy)`, translated line by line:
on a `!` prefix the source overwrites the input `branch` variable with the
stripped policy pattern while `policyBranch` keeps the unstripped pattern. -/
def cleanupTrigger (branch : String) (cleanupPolicy : Option Cleanup) :
    Option Bool :=
  match cleanupPolicy with
  | none => some false
  | some cp =>
    if cp.branch = "" then some false
    else if cp.appToCleanup = "" then some false
    else
      let negate := goHasPrefix cp.branch "!"
      let policyBranch := cp.branch
      let branch := if negate then goDropOne cp.branch else branch
      match globMatch policyBranch branch with
      | none => none  -- MustCompile panics
      | some patternMatch =>
        let exactMatch := branch = policyBranch
        let isMatch := exactMatch || patternMatch
        if negate && !isMatch then some true
        else if !negate && isMatch then some true
        else some false

/-! ## Theorems: policy engine claims -/

/-- C1 (failing input): with cleanup policy branch `!main` and app set, the
source returns `true` for the deleted branch `main` as well — the negation
handling overwrites the input `branch` variable with the stripped pattern
and compiles the glob from the unstripped pattern — contradicting the
claimed strip-and-negate glob semantics, which demand `false` here. -/
theorem cleanupTrigger_negated_main_code_bug :
    cleanupTrigger "main"
      (some { appToCleanup := "preview", branch := "!main" }) = some true := by
  simp [cleanupTrigger, globMatch, globParse, globMatchL, globParseAux,
    goHasPrefix, goDropOne]

/-- C2 (failing input): the tag block initialises the exact-match value from
`deployPolicy.Branch` and compiles the glob from the unstripped
`deployPolicy.Tag`, so artifact tag `v1` against negated policy tag `!v*`
(event `tag`) yields `true`, while the claimed strip-then-negate semantics
demand `false`. -/
theorem deployTrigger_negated_tag_code_bug :
    deployTrigger { version := { tag := "v1", event := .tag } }
      (some { tag := "!v*", event := some .tag }) = some true := by
  simp [deployTrigger, globMatch, globParse, globMatchL, globParseAux,
    goHasPrefix, goDropOne]

/-- C4: `deployTrigger` returns false when the policy is nil, when all of
branch, tag and event are empty, when branch is set but the event is not
push or pr, and when tag is set but the event is not tag. -/
theorem deployTrigger_false_conditions (a : Artifact) (d : Option Deploy)
    (h : d = none ∨ ∃ dp, d = some dp ∧
      ((dp.branch = "" ∧ dp.event = none ∧ dp.tag = "") ∨
       (dp.branch ≠ "" ∧ dp.event ≠ some .push ∧ dp.event ≠ some .pr) ∨
       (dp.tag ≠ "" ∧ dp.event ≠ some .tag))) :
    deployTrigger a d = some false := by
  rcases h with rfl | ⟨dp, rfl, h⟩
  · rfl
  · unfold deployTrigger
    dsimp only
    rcases h with ⟨a1, a2, a3⟩ | ⟨a1, a2, a3⟩ | ⟨a1, a2⟩
    · rw [if_pos ⟨a1, a2, a3⟩]
    · rw [if_neg (fun hc => a1 hc.1), if_pos ⟨a1, Or.inr ⟨a2, a3⟩⟩]
    · rw [if_neg (fun hc => a1 hc.2.2)]
      by_cases h2 : dp.branch ≠ "" ∧
          (dp.event = none ∨ (dp.event ≠ some .push ∧ dp.event ≠ some .pr))
      · rw [if_pos h2]
      · rw [if_neg h2, if_pos ⟨a1, Or.inr a2⟩]

/-- Witness for C4 at concrete inputs: a nil policy, and a policy with tag
`v*` but no event (spec scenario S3's third case). -/
theorem deployTrigger_false_conditions_witness :
    deployTrigger { version := { branch := "main", event := .push } } none
        = some false ∧
      deployTrigger { version := { branch := "main", event := .push } }
        (some { tag := "v*" }) = some false :=
  ⟨deployTrigger_false_conditions _ none (Or.inl rfl),
   deployTrigger_false_conditions _ _
     (Or.inr ⟨_, rfl, Or.inr (Or.inr ⟨by decide, by decide⟩)⟩)⟩

/-- C9: an invalid glob pattern such as `[` reaches `glob.MustCompile` in
both triggers and panics (modelled as `none`) instead of evaluating to
false; `Run`/`processEvent` install no recover, so the panic escapes the
worker goroutine. -/
theorem trigger_invalid_glob_panics :
    deployTrigger { version := { branch := "dev", event := .push } }
        (some { branch := "[", event := some .push }) = none ∧
      cleanupTrigger "dev"
        (some { appToCleanup := "preview", branch := "[" }) = none := by
  constructor <;>
    simp [deployTrigger, cleanupTrigger, globMatch, globParse, globMatchL,
      globParseAux, goHasPrefix, goDropOne]

/-! ## Template engine: `sanitizeDNSName` (`dx/manifest.go`)

`sanitizeDNSName` lowercases, replaces every maximal run of non-`[0-9a-z]`
characters with a single `-` (the regex `[^0-9a-z]+`), truncates to 63
characters and trims one trailing and one leading `-`.  Strings are
processed as their character lists; `strings.ToLower` is modelled by the
ASCII case mapping `Char.toLower` (a non-ASCII letter is replaced by `-`
by the following step either way). -/

/-- A lowercase-alphanumeric character, `[0-9a-z]`. -/
def isLowerAlnum (c : Char) : Bool :=
  ('0' ≤ c && c ≤ '9') || ('a' ≤ c && c ≤ 'z')

/-- The replacement `r.ReplaceAllString(str, "-")` for `r = [^0-9a-z]+`:
every maximal run of non-`[0-9a-z]` characters becomes one `-`.  The flag
records whether the scanner is inside such a run. -/
def collapseRuns : Bool → List Char → List Char
  | _, [] => []
  | inRun, c :: rest =>
    if isLowerAlnum c then c :: collapseRuns false rest
    else if inRun then collapseRuns true rest
    else '-' :: collapseRuns true rest

/-- `strings.TrimSuffix(s, "-")`: drop one trailing dash if present. -/
def trimSuffixDash (l : List Char) : List Char :=
  if l.getLast? = some '-' then l.dropLast else l

/-- `strings.TrimPrefix(s, "-")`: drop one leading dash if present. -/
def trimPrefixDash (l : List Char) : List Char :=
  match l with
  | [] => []
  | c :: rest => if c = '-' then rest else c :: rest

/-- `dx.sanitizeDNSName` on the character list, in source order:
lowercase, collapse, truncate to 63, trim suffix dash, trim leading dash. -/
def sanitizeDNSNameL (l : List Char) : List Char :=
  trimPrefixDash (trimSuffixDash
    ((collapseRuns false (l.map Char.toLower)).take 63))

/-- `dx.sanitizeDNSName`. -/
def sanitizeDNSName (s : String) : String :=
  String.mk (sanitizeDNSNameL s.data)

/-- Reference definition following the claim's words ("truncate to 63
characters, then remove a leading and a trailing `-`"), removing the
leading dash first. -/
def sanitizeDNSNameRef (s : String) : String :=
  String.mk (trimSuffixDash (trimPrefixDash
    ((collapseRuns false (s.data.map Char.toLower)).take 63)))

/-- A character allowed anywhere in an RFC 1123 label: `[-a-z0-9]`. -/
def isDNSLabelChar (c : Char) : Bool :=
  isLowerAlnum c || c = '-'

/-- The claim's regex `^([a-z0-9]([-a-z0-9]*[a-z0-9])?)?$`: empty, or all
characters in `[-a-z0-9]` with alphanumeric first and last characters. -/
def matchesRFC1123Label (l : List Char) : Bool :=
  l.all isDNSLabelChar && l.head?.all isLowerAlnum &&
    l.getLast?.all isLowerAlnum

/-- No two adjacent dashes: the invariant `collapseRuns` establishes. -/
def NoDashPair (l : List Char) : Prop :=
  List.Chain' (fun c d => ¬(c = '-' ∧ d = '-')) l

theorem isLowerAlnum_ne_dash {c : Char} (h : isLowerAlnum c = true) :
    c ≠ '-' := by
  intro hc
  subst hc
  exact absurd h (by decide)

theorem isLowerAlnum_of_label {c : Char} (h : isDNSLabelChar c = true)
    (hne : c ≠ '-') : isLowerAlnum c = true := by
  simp only [isDNSLabelChar, Bool.or_eq_true, decide_eq_true_eq] at h
  exact h.resolve_right hne

theorem collapseRuns_chars : ∀ (b : Bool) (l : List Char) (c : Char),
    c ∈ collapseRuns b l → isDNSLabelChar c = true := by
  intro b l
  induction l generalizing b with
  | nil => intro c hc; simp [collapseRuns] at hc
  | cons d rest ih =>
    intro c hc
    by_cases hd : isLowerAlnum d
    · rw [collapseRuns, if_pos hd] at hc
      rcases List.mem_cons.mp hc with rfl | hc
      · simp [isDNSLabelChar, hd]
      · exact ih false c hc
    · rw [collapseRuns, if_neg hd] at hc
      cases b with
      | true => exact ih true c (by simpa using hc)
      | false =>
        rcases List.mem_cons.mp (by simpa using hc) with rfl | hc
        · simp [isDNSLabelChar]
        · exact ih true c hc

theorem collapseRuns_noDD_and_head : ∀ (l : List Char) (b : Bool),
    NoDashPair (collapseRuns b l) ∧
      (collapseRuns true l).head? ≠ some '-' := by
  intro l
  induction l with
  | nil => intro b; exact ⟨List.chain'_nil, by simp [collapseRuns]⟩
  | cons d rest ih =>
    intro b
    by_cases hd : isLowerAlnum d
    · have hne : d ≠ '-' := isLowerAlnum_ne_dash hd
      constructor
      · rw [collapseRuns, if_pos hd]
        exact List.chain'_cons'.mpr
          ⟨fun y _ => fun hcon => hne hcon.1, (ih false).1⟩
      · rw [collapseRuns, if_pos hd]
        simpa using hne
    · have hrwT : collapseRuns true (d :: rest) = collapseRuns true rest := by
        rw [collapseRuns, if_neg hd, if_pos rfl]
      have hrwF : collapseRuns false (d :: rest)
          = '-' :: collapseRuns true rest := by
        rw [collapseRuns, if_neg hd, if_neg (by decide)]
      constructor
      · cases b with
        | true => rw [hrwT]; exact (ih true).1
        | false =>
          rw [hrwF]
          refine List.chain'_cons'.mpr ⟨fun y hy hcon => ?_, (ih true).1⟩
          have hsome : (collapseRuns true rest).head? = some y := by
            simpa using hy
          rw [hcon.2] at hsome
          exact (ih true).2 hsome
      · rw [hrwT]
        exact (ih true).2

/-- Behaviour of one leading-dash trim on a list with label characters and
no adjacent dashes: the head becomes alphanumeric (or the list empty), the
other invariants survive, and the last element is untouched unless the
list empties. -/
theorem trimPrefixDash_props (l : List Char)
    (hchars : ∀ c ∈ l, isDNSLabelChar c = true) (hdd : NoDashPair l) :
    (trimPrefixDash l).head?.all isLowerAlnum = true ∧
      (∀ c ∈ trimPrefixDash l, isDNSLabelChar c = true) ∧
      NoDashPair (trimPrefixDash l) ∧
      ((trimPrefixDash l).getLast? = l.getLast? ∨ trimPrefixDash l = []) ∧
      (trimPrefixDash l).length ≤ l.length := by
  match l with
  | [] => exact ⟨rfl, by simp [trimPrefixDash], List.chain'_nil,
      Or.inl rfl, le_refl _⟩
  | c :: rest =>
    by_cases hc : c = '-'
    · subst hc
      rw [trimPrefixDash, if_pos rfl]
      refine ⟨?_, ?_, ?_, ?_, ?_⟩
      · cases rest with
        | nil => rfl
        | cons d rest' =>
          have hd : d ≠ '-' := by
            have := (List.chain'_cons.mp hdd).1
            intro hdeq
            exact this ⟨rfl, hdeq⟩
          have := isLowerAlnum_of_label
            (hchars d (by simp)) hd
          simpa using this
      · exact fun c hc => hchars c (List.mem_cons_of_mem _ hc)
      · exact hdd.tail
      · cases rest with
        | nil => exact Or.inr rfl
        | cons d rest' => exact Or.inl List.getLast?_cons_cons.symm
      · simp
    · rw [trimPrefixDash, if_neg hc]
      refine ⟨?_, hchars, hdd, Or.inl rfl, le_refl _⟩
      have := isLowerAlnum_of_label (hchars c (by simp)) hc
      simpa using this

/-- `TrimSuffix` is the reversed `TrimPrefix`. -/
theorem trimSuffixDash_eq_reverse (l : List Char) :
    trimSuffixDash l = (trimPrefixDash l.reverse).reverse := by
  cases hl : l.reverse with
  | nil =>
    have : l = [] := by simpa using congrArg List.reverse hl
    subst this
    rfl
  | cons c rest =>
    have hlast : l.getLast? = some c := by
      rw [← List.head?_reverse, hl]; rfl
    by_cases hc : c = '-'
    · subst hc
      rw [trimSuffixDash, if_pos hlast, trimPrefixDash, if_pos rfl]
      have : rest = l.dropLast.reverse := by
        rw [← List.tail_reverse, hl]; rfl
      rw [this, List.reverse_reverse]
    · rw [trimSuffixDash, trimPrefixDash, if_neg hc,
        if_neg (by rw [hlast]; simpa using hc), ← hl, List.reverse_reverse]

theorem NoDashPair.reverse {l : List Char} (h : NoDashPair l) :
    NoDashPair l.reverse := by
  rw [NoDashPair, List.chain'_reverse]
  exact h.imp (fun a b hab => fun hcon => hab ⟨hcon.2, hcon.1⟩)

/-- Removing one leading and one trailing dash commute. -/
theorem trimDash_comm (x : List Char) :
    trimPrefixDash (trimSuffixDash x) = trimSuffixDash (trimPrefixDash x) := by
  match x with
  | [] => rfl
  | [c] =>
    by_cases hc : c = '-' <;>
      simp [trimPrefixDash, trimSuffixDash, hc]
  | c :: d :: rest =>
    have hgl : (c :: d :: rest).getLast? = (d :: rest).getLast? :=
      List.getLast?_cons_cons
    have hdl : (c :: d :: rest).dropLast = c :: (d :: rest).dropLast := rfl
    by_cases hc : c = '-' <;>
      by_cases hlast : (d :: rest).getLast? = some '-' <;>
        simp [trimPrefixDash, trimSuffixDash, hgl, hdl, hc, hlast]

theorem sanitizeDNSNameL_label (l : List Char) :
    matchesRFC1123Label (sanitizeDNSNameL l) = true ∧
      (sanitizeDNSNameL l).length ≤ 63 := by
  set m := (collapseRuns false (l.map Char.toLower)).take 63 with hm
  have hchars : ∀ c ∈ m, isDNSLabelChar c = true := fun c hc =>
    collapseRuns_chars false _ c ((List.take_sublist _ _).subset hc)
  have hdd : NoDashPair m :=
    List.Chain'.take (collapseRuns_noDD_and_head _ false).1 63
  have hlen : m.length ≤ 63 := List.length_take_le _ _
  have hrev := trimPrefixDash_props m.reverse
    (fun c hc => hchars c (List.mem_reverse.mp hc)) hdd.reverse
  set X := trimPrefixDash m.reverse with hX
  have ht1 : trimSuffixDash m = X.reverse := trimSuffixDash_eq_reverse m
  have ht1chars : ∀ c ∈ X.reverse, isDNSLabelChar c = true := fun c hc =>
    hrev.2.1 c (List.mem_reverse.mp hc)
  have ht1dd : NoDashPair X.reverse := NoDashPair.reverse hrev.2.2.1
  have ht1last : (X.reverse).getLast?.all isLowerAlnum = true := by
    rw [List.getLast?_reverse]
    exact hrev.1
  have hfin := trimPrefixDash_props X.reverse ht1chars ht1dd
  have hfinal_eq : sanitizeDNSNameL l = trimPrefixDash X.reverse := by
    rw [sanitizeDNSNameL, ← hm, ht1]
  constructor
  · rw [hfinal_eq]
    simp only [matchesRFC1123Label]
    have hAll : (trimPrefixDash X.reverse).all isDNSLabelChar = true :=
      List.all_eq_true.mpr (fun c hc => hfin.2.1 c hc)
    have hLast :
        (trimPrefixDash X.reverse).getLast?.all isLowerAlnum = true := by
      rcases hfin.2.2.2.1 with heq | hempty
      · rw [heq]; exact ht1last
      · rw [hempty]; rfl
    rw [hAll, hfin.1, hLast]
    rfl
  · rw [hfinal_eq]
    have h1 : (trimPrefixDash X.reverse).length ≤ X.reverse.length :=
      hfin.2.2.2.2
    have h2 : X.reverse.length = X.length := List.length_reverse _
    have h3 : X.length ≤ m.reverse.length := hrev.2.2.2.2
    have h4 : m.reverse.length = m.length := List.length_reverse _
    omega

/-- C5: `sanitizeDNSName` equals the claim's reference definition, its
output always matches the regex `^([a-z0-9]([-a-z0-9]*[a-z0-9])?)?$` with
length at most 63, and the two quoted examples evaluate as claimed. -/
theorem sanitizeDNSName_spec :
    (∀ s : String, sanitizeDNSName s = sanitizeDNSNameRef s) ∧
      (∀ s : String, matchesRFC1123Label (sanitizeDNSName s).data = true ∧
        (sanitizeDNSName s).length ≤ 63) ∧
      sanitizeDNSName "dependabot/npm_and_yarn/ws-5.2.3"
          = "dependabot-npm-and-yarn-ws-5-2-3" ∧
      sanitizeDNSName ("-can" ++ (Char.ofNat 39).toString
          ++ "t start with dashes, nor end-")
          = "can-t-start-with-dashes-nor-end" := by
  refine ⟨fun s => ?_, fun s => ?_, ?_, ?_⟩
  · unfold sanitizeDNSName sanitizeDNSNameRef sanitizeDNSNameL
    rw [trimDash_comm]
  · exact sanitizeDNSNameL_label s.data
  · rfl
  · rfl

/-! ## Template engine: `Manifest.ResolveVars` (`dx/manifest.go`)

The manifest (with the cleanup block detached) is serialized to YAML,
parsed as a `text/template` with the `sanitizeDNSName` helper, executed
against the variable map, and parsed back; templating the document is
modelled as templating each string field.  The modelled template subset is
the one the manifests use: literal text and actions of the form
`.NAME` or `.NAME | sanitizeDNSName`; an unterminated action is a parse
error, after which the source returns with `m.Cleanup` still nil. -/

/-- The `\x7b` character opening a template action when doubled. -/
def lbrace : Char := Char.ofNat 123

/-- The `\x7d` character closing a template action when doubled. -/
def rbrace : Char := Char.ofNat 125

/-- A parsed template node: literal text, or an action referencing a
variable with an optional `| sanitizeDNSName` pipeline. -/
inductive TmplPart where
  | lit (s : List Char)
  | var (name : List Char) (sanitize : Bool)
deriving Repr, DecidableEq

/-- A character of a template variable name. -/
def isIdentChar (c : Char) : Bool :=
  c.isAlpha || c.isDigit || c = '_'

/-- Parse the inside of a `.NAME [| sanitizeDNSName]` action;
`none` is a template parse error. -/
def parseAction (inside : List Char) : Option TmplPart :=
  let t := ((inside.dropWhile (· = ' ')).reverse.dropWhile (· = ' ')).reverse
  match t with
  | '.' :: rest =>
    if rest.contains '|' then
      let name :=
        (((rest.takeWhile (· ≠ '|')).reverse.dropWhile (· = ' '))).reverse
      let aft := ((rest.dropWhile (· ≠ '|')).tail).dropWhile (· = ' ')
      if aft = "sanitizeDNSName".data ∧ name ≠ [] ∧ name.all isIdentChar then
        some (.var name true)
      else none
    else if rest ≠ [] ∧ rest.all isIdentChar then some (.var rest false)
    else none
  | _ => none

/-- Scanner states of the `template.Parse` model: reading literal text,
having read a single opening brace, inside an action (chars read so far),
or inside an action having read a single closing brace. -/
inductive TmplScanState where
  | text
  | sawOpen
  | action (acc : List Char)
  | actionClose (acc : List Char)
deriving Repr, DecidableEq

/-- `template.Parse` scanner, one character per step; `none` overall is a
parse error (unterminated action or a malformed action body). -/
def parseTmplAux : TmplScanState → List Char → Option (List TmplPart)
  | .text, [] => some []
  | .sawOpen, [] => some [TmplPart.lit [lbrace]]
  | .action _, [] => none
  | .actionClose _, [] => none
  | .text, c :: rest =>
    if c = lbrace then parseTmplAux .sawOpen rest
    else (parseTmplAux .text rest).map (fun ps => TmplPart.lit [c] :: ps)
  | .sawOpen, c :: rest =>
    if c = lbrace then parseTmplAux (.action []) rest
    else (parseTmplAux .text rest).map
      (fun ps => TmplPart.lit [lbrace] :: TmplPart.lit [c] :: ps)
  | .action acc, c :: rest =>
    if c = rbrace then parseTmplAux (.actionClose acc) rest
    else parseTmplAux (.action (acc ++ [c])) rest
  | .actionClose acc, c :: rest =>
    if c = rbrace then
      match parseAction acc with
      | none => none
      | some part => (parseTmplAux .text rest).map (fun ps => part :: ps)
    else parseTmplAux (.action (acc ++ [rbrace, c])) rest

/-- `Execute` against the variable map; a missing map key prints
`<no value>` (the template default for a missing key). -/
def renderTmpl (vars : List (String × String)) (parts : List TmplPart) :
    List Char :=
  parts.flatMap (fun p =>
    match p with
    | .lit s => s
    | .var name sanitize =>
      let v := match lookupVar vars (String.mk name) with
        | some v => v.data
        | none => "<no value>".data
      if sanitize then sanitizeDNSNameL v else v)

/-- Parse-and-execute one string field of the manifest document. -/
def resolveString (vars : List (String × String)) (s : String) :
    Option String :=
  (parseTmplAux .text s.data).map (fun ps => String.mk (renderTmpl vars ps))

/-- Template every string field of the manifest-without-cleanup; `none` is
a template parse error (the document is one template, so any bad field
fails the whole call). -/
def Manifest.renderAll (m : Manifest) (vars : List (String × String)) :
    Option Manifest := do
  let app ← resolveString vars m.app
  let env ← resolveString vars m.env
  let ns ← resolveString vars m.namespaceField
  let deploy ← match m.deploy with
    | none => pure none
    | some d => do
      let tag ← resolveString vars d.tag
      let branch ← resolveString vars d.branch
      pure (some { d with tag := tag, branch := branch })
  let chartRepo ← resolveString vars m.chart.repository
  let chartName ← resolveString vars m.chart.name
  let chartVer ← resolveString vars m.chart.version
  let values ← m.values.mapM (fun kv => do
    let v ← resolveString vars kv.2
    pure (kv.1, v))
  let smp ← resolveString vars m.strategicMergePatches
  let jp ← resolveString vars m.json6902Patches
  pure { app := app, env := env, namespaceField := ns, deploy := deploy,
         cleanup := none,
         chart := { repository := chartRepo, name := chartName,
                    version := chartVer },
         values := values, strategicMergePatches := smp,
         json6902Patches := jp }

/-- `Manifest.ResolveVars(vars)`: back up the cleanup block, nil it, render
the rest, restore the backup only after a successful render — on a parse
error the source returns early with `m.Cleanup` still nil.  The second
component is the Go error. -/
def Manifest.resolveVarsGo (m : Manifest) (vars : List (String × String)) :
    Manifest × Option String :=
  let cleanupBkp := m.cleanup
  match Manifest.renderAll { m with cleanup := none } vars with
  | none => ({ m with cleanup := none }, some "template parse error")
  | some m2 => ({ m2 with cleanup := cleanupBkp }, none)

/-- A templated app name, `my-app-` followed by the action `.X`:
the concrete input used by several witnesses. -/
def exampleTmplApp : String :=
  "my-app-" ++ String.mk [lbrace, lbrace] ++ " .X "
    ++ String.mk [rbrace, rbrace]

/-- An unterminated template action (a bare doubled opening brace). -/
def exampleBadTmpl : String := String.mk [lbrace, lbrace]

/-- C8 counterexample: on a manifest whose app field holds an unterminated
template action, `ResolveVars` fails to parse and returns with the cleanup
block nil instead of the original non-nil value, so the cleanup block is
not always exactly preserved. -/
theorem resolveVars_cleanup_lost_counterexample :
    (Manifest.resolveVarsGo
        { app := exampleBadTmpl,
          cleanup := some { appToCleanup := "x", branch := "b" } } []).1.cleanup
        = none ∧
      (some { appToCleanup := "x", branch := "b" } : Option Cleanup) ≠ none ∧
      (Manifest.resolveVarsGo
        { app := exampleBadTmpl,
          cleanup := some { appToCleanup := "x", branch := "b" } } []).2
        ≠ none := by
  refine ⟨by decide, by decide, by decide⟩

/-- C8 amended: when `ResolveVars` returns nil, `m.Cleanup` is exactly the
pre-call value (placeholders inside it are never substituted); when it
fails before the final unmarshal (template parse error), `m.Cleanup` is
left nil. -/
theorem resolveVars_cleanup_frame (m : Manifest)
    (vars : List (String × String)) :
    ((Manifest.resolveVarsGo m vars).2 = none →
      (Manifest.resolveVarsGo m vars).1.cleanup = m.cleanup) ∧
      ((Manifest.resolveVarsGo m vars).2 ≠ none →
        (Manifest.resolveVarsGo m vars).1.cleanup = none) := by
  constructor
  · intro h2
    unfold Manifest.resolveVarsGo at h2 ⊢
    cases h : Manifest.renderAll { m with cleanup := none } vars with
    | none => rw [h] at h2; simp at h2
    | some m2 => rfl
  · intro h2
    unfold Manifest.resolveVarsGo at h2 ⊢
    cases h : Manifest.renderAll { m with cleanup := none } vars with
    | none => rfl
    | some m2 => rw [h] at h2; simp at h2

/-- Witness for C8 at a concrete manifest having both a substituted app
template and a cleanup block: resolution succeeds and the cleanup block is
returned untouched. -/
theorem resolveVars_cleanup_frame_witness :
    (Manifest.resolveVarsGo
        { app := exampleTmplApp,
          cleanup := some { appToCleanup := "x", branch := "b" } }
        [("X", "test")]).1.cleanup
      = some { appToCleanup := "x", branch := "b" } :=
  (resolveVars_cleanup_frame _ _).1 (by decide)

/-! ## Release-event handler (`worker/process.go`) -/

/-- `dx.ReleaseRequest`: the blob of a `release` event. -/
structure ReleaseRequest where
  env : String := ""
  app : String := ""
  artifactID : String := ""
  triggeredBy : String := ""
deriving Repr, DecidableEq

/-- The loop body of `processReleaseEvent` for one environment of the
referenced artifact: `none` means the environment is skipped (env filter,
or app filter after the in-place `ResolveVars` whose error is discarded),
`some m'` is the manifest `cloneTemplateWriteAndPush` templates after
applying `ResolveVars` to it a second time (the git, helm and push steps
do not alter the manifest). -/
def releaseEnvStep (releaseRequest : ReleaseRequest)
    (vars : List (String × String)) (env : Manifest) : Option Manifest :=
  if env.env ≠ releaseRequest.env then none
  else
    let env1 := (Manifest.resolveVarsGo env vars).1
    if releaseRequest.app ≠ "" ∧ env1.app ≠ releaseRequest.app then none
    else some (Manifest.resolveVarsGo env1 vars).1

/-- The manifests `processReleaseEvent` hands to the templating step, in
environment order. -/
def processReleaseEventManifests (artifact : Artifact)
    (releaseRequest : ReleaseRequest) : List Manifest :=
  artifact.environments.filterMap
    (releaseEnvStep releaseRequest artifact.varsOf)

/-- C10: in the release loop body, `ResolveVars` is applied in place (error
discarded) before the app filter, so a non-empty `request.app` is compared
against the resolved app name; the selected manifest then undergoes
`ResolveVars` a second time inside `cloneTemplateWriteAndPush`. -/
theorem releaseEnvStep_resolves_before_filter (req : ReleaseRequest)
    (vars : List (String × String)) (env : Manifest)
    (henv : env.env = req.env) (happ : req.app ≠ "") :
    releaseEnvStep req vars env
      = (if (Manifest.resolveVarsGo env vars).1.app = req.app
         then some
           (Manifest.resolveVarsGo (Manifest.resolveVarsGo env vars).1 vars).1
         else none) := by
  unfold releaseEnvStep
  rw [if_neg (by simp [henv])]
  by_cases h : (Manifest.resolveVarsGo env vars).1.app = req.app
  · rw [if_neg (fun hc => hc.2 h), if_pos h]
  · rw [if_pos ⟨happ, h⟩, if_neg h]

/-- Witness for C10: the app filter accepts the environment whose templated
app name `my-app-` + action resolves to the requested `my-app-test`, and
the selected manifest is the twice-resolved one. -/
theorem releaseEnvStep_resolves_before_filter_witness :
    releaseEnvStep { env := "staging", app := "my-app-test" }
        [("X", "test")] { app := exampleTmplApp, env := "staging" }
      = some (Manifest.resolveVarsGo
          (Manifest.resolveVarsGo
            { app := exampleTmplApp, env := "staging" } [("X", "test")]).1
          [("X", "test")]).1 := by
  rw [releaseEnvStep_resolves_before_filter _ _ _ rfl (by decide)]
  rw [if_pos (by decide)]

/-! ## Worker event processing (`worker/process.go`)

The rollback handler and the terminal-status bookkeeping.  The git layer
(`InstanceForWrite`, `revertTo`, `shasSince`, `NativePush`) is abstracted
by the results its calls would return; the worker code around those calls
is translated directly. -/

/-- `dx.RollbackRequest`: the blob of a `rollback` event. -/
structure RollbackRequest where
  env : String := ""
  app : String := ""
  targetSHA : String := ""
  triggeredBy : String := ""
deriving Repr, DecidableEq

/-- An event blob as `json.Unmarshal` sees it: decodable into the
request type, or malformed (unmarshal error). -/
inductive EventBlob where
  | rollback (r : RollbackRequest)
  | malformed (raw : String)
deriving Repr, DecidableEq

/-- `events.Success` / `events.Failure`. -/
inductive GitopsStatus where
  | success
  | failure
deriving Repr, DecidableEq

/-- `events.RollbackEvent`. -/
structure RollbackEvent where
  rollbackRequest : RollbackRequest
  gitopsRepo : String := ""
  gitopsRefs : List String := []
  status : GitopsStatus := .success
  statusDesc : String := ""
deriving Repr, DecidableEq

/-- Modelled from the spec: results of the git layer the rollback handler
calls (repository code outside `src/`): `InstanceForWrite`, the `revertTo`
walk, `shasSince` and `NativePush`.  `none`/`Except.ok` mean success. -/
structure GitRollbackEnv where
  instErr : Option String := none
  revertErr : Option String := none
  shasSince : Except String (List String) := .ok []
  pushErr : Option String := none
deriving Repr

/-- `worker.processRollbackEvent`: parse the blob (returning a nil event
on failure), acquire a write instance, revert, collect the SHAs since the
old head, push; any failure returns the event with `Failure` status and
the error. -/
def processRollbackEvent (gitopsRepo : String) (git : GitRollbackEnv)
    (blob : EventBlob) : Option RollbackEvent × Option String :=
  match blob with
  | .malformed _ => (none, some "cannot parse release request")
  | .rollback rollbackRequest =>
    let rollbackEvent : RollbackEvent :=
      { rollbackRequest := rollbackRequest, gitopsRepo := gitopsRepo }
    match git.instErr with
    | some e =>
      (some { rollbackEvent with status := .failure, statusDesc := e }, some e)
    | none =>
      match git.revertErr with
      | some e =>
        (some { rollbackEvent with status := .failure, statusDesc := e },
          some e)
      | none =>
        match git.shasSince with
        | .error e =>
          (some { rollbackEvent with status := .failure, statusDesc := e },
            some e)
        | .ok hashes =>
          match git.pushErr with
          | some e =>
            (some { rollbackEvent with status := .failure, statusDesc := e },
              some e)
          | none =>
            (some { rollbackEvent with
                      gitopsRefs := hashes,
                      status := .success },
              none)

/-- `model.Event` statuses. -/
inductive EventStatus where
  | new
  | processed
  | error
deriving Repr, DecidableEq

/-- `model.Event`, the fields the worker touches.  `gitopsHashes` is a Go
slice whose nil state (`none`) is distinct from the empty slice. -/
structure Event where
  id : String := ""
  blob : EventBlob := .malformed ""
  status : EventStatus := .new
  statusDesc : String := ""
  gitopsHashes : Option (List String) := none
deriving Repr, DecidableEq

/-- `worker.setGitopsHashOnEvent`: ignore empty SHAs; initialise the nil
slice to empty on first use; append. -/
def setGitopsHashOnEvent (gitopsHashes : Option (List String))
    (gitopsSha : String) : Option (List String) :=
  if gitopsSha = "" then gitopsHashes
  else
    let cur := match gitopsHashes with
      | none => []
      | some l => l
    some (cur ++ [gitopsSha])

/-- Observable outcome of `processEvent` on a rollback event: how many
rollback notifications were broadcast, whether the goroutine panicked on a
nil-pointer dereference, and the terminal status write (`none` when the
panic happened before `updateEvent` could run). -/
structure RollbackArmOutcome where
  broadcasts : Nat
  panicked : Bool
  statusWritten : Option (EventStatus × Option (List String))
deriving Repr, DecidableEq

/-- The `model.TypeRollback` arm of `worker.processEvent`: run the handler,
always broadcast one rollback notification, then iterate
`rollbackEvent.GitopsRefs` — a nil-pointer dereference (panic) when the
handler returned a nil event, as it does on a blob parse failure — and
finally persist the terminal status. -/
def processEventRollbackArm (gitopsRepo : String) (git : GitRollbackEnv)
    (event : Event) : RollbackArmOutcome :=
  let handled := processRollbackEvent gitopsRepo git event.blob
  let broadcasts := 1
  match handled.1 with
  | none =>
    { broadcasts := broadcasts, panicked := true, statusWritten := none }
  | some ev =>
    let hashes := ev.gitopsRefs.foldl setGitopsHashOnEvent event.gitopsHashes
    match handled.2 with
    | some _ =>
      { broadcasts := broadcasts, panicked := false,
        statusWritten := some (.error, hashes) }
    | none =>
      { broadcasts := broadcasts, panicked := false,
        statusWritten := some (.processed, hashes) }

/-- C3 (failing input): a rollback event whose blob does not decode makes
`processRollbackEvent` return a nil event; `processEvent` broadcasts the
one rollback notification and then dereferences the nil pointer at
`rollbackEvent.GitopsRefs`: the goroutine panics and no terminal status is
written, contradicting "without crashing the process". -/
theorem processEvent_rollback_nil_deref :
    processEventRollbackArm "gitops" {}
        { id := "1", blob := .malformed "not-json" }
      = { broadcasts := 1, panicked := true, statusWritten := none } := by
  decide

/-! ## Terminal status write: `updateEvent` and `gitopsHashes` (C6) -/

/-- The JSON string delimiter character `"`. -/
def jsonQuote : Char := Char.ofNat 34

/-- The JSON escape character `\`. -/
def jsonBackslash : Char := Char.ofNat 92

/-- `json.Marshal` of one string: quoted, with quotes and backslashes
escaped (the hex SHAs the worker records need nothing further). -/
def jsonStringLit (s : String) : List Char :=
  jsonQuote :: (s.data.flatMap (fun c =>
    if c = jsonQuote ∨ c = jsonBackslash then [jsonBackslash, c] else [c]))
    ++ [jsonQuote]

/-- `json.Marshal` of a non-nil `[]string`: a JSON array. -/
def jsonStringArray (l : List String) : String :=
  String.mk ('[' :: (List.intercalate [','] (l.map jsonStringLit)) ++ [']'])

/-- `worker.updateEvent`'s `json.Marshal(event.GitopsHashes)`: the literal
`null` for a nil slice, a JSON array for a non-nil slice. -/
def serializeGitopsHashes (gitopsHashes : Option (List String)) : String :=
  match gitopsHashes with
  | none => "null"
  | some l => jsonStringArray l

/-- `worker.updateEvent`: the `(status, statusDesc, gitopsHashes-JSON)`
triple handed to `store.UpdateEventStatus`. -/
def updateEvent (event : Event) : EventStatus × String × String :=
  (event.status, event.statusDesc, serializeGitopsHashes event.gitopsHashes)

theorem foldl_setGitopsHash_some (shas : List String) (acc : List String) :
    shas.foldl setGitopsHashOnEvent (some acc)
      = some (acc ++ shas.filter (fun s => s ≠ "")) := by
  induction shas generalizing acc with
  | nil => simp
  | cons s rest ih =>
    by_cases hs : s = ""
    · subst hs
      simp [setGitopsHashOnEvent, ih]
    · simp [setGitopsHashOnEvent, hs, ih]

theorem foldl_setGitopsHash_none (shas : List String) :
    shas.foldl setGitopsHashOnEvent none
      = if shas.filter (fun s => s ≠ "") = [] then none
        else some (shas.filter (fun s => s ≠ "")) := by
  induction shas with
  | nil => simp
  | cons s rest ih =>
    by_cases hs : s = ""
    · subst hs
      simpa [setGitopsHashOnEvent] using ih
    · simp [setGitopsHashOnEvent, hs, foldl_setGitopsHash_some]

/-- C6 counterexample: for an event on which no gitops hash was ever
recorded the slice is still nil, and `updateEvent` hands
`store.UpdateEventStatus` the string `null` — not a JSON array (a
marshalled array always starts with a bracket, as the empty array shows). -/
theorem updateEvent_null_counterexample :
    (updateEvent { id := "1", blob := .malformed "",
                   status := .processed, gitopsHashes := none }).2.2
        = "null" ∧
      "null".data.head? ≠ some '[' ∧
      (jsonStringArray []).data.head? = some '[' := by
  refine ⟨rfl, by decide, by decide⟩

/-- C6 amended: empty SHAs are never recorded, and when at least one SHA
was recorded on the event, the string handed to `UpdateEventStatus` is the
JSON array of the recorded SHAs in recording order; with no recorded SHA
the nil slice serializes to `null` instead of an array. -/
theorem updateEvent_gitopsHashes_array (shas : List String) (event : Event)
    (hinit : event.gitopsHashes = none)
    (hrec : shas.filter (fun s => s ≠ "") ≠ []) :
    shas.foldl setGitopsHashOnEvent event.gitopsHashes
        = some (shas.filter (fun s => s ≠ "")) ∧
      serializeGitopsHashes (shas.foldl setGitopsHashOnEvent event.gitopsHashes)
        = jsonStringArray (shas.filter (fun s => s ≠ "")) ∧
      "" ∉ shas.filter (fun s => s ≠ "") := by
  rw [hinit, foldl_setGitopsHash_none, if_neg hrec]
  refine ⟨rfl, rfl, ?_⟩
  simp

/-- Witness for C6 at concrete inputs: SHAs `a`, an empty SHA and `b`
recorded on a fresh event. -/
theorem updateEvent_gitopsHashes_array_witness :
    ["a", "", "b"].foldl setGitopsHashOnEvent
          ({ id := "1" } : Event).gitopsHashes
        = some (["a", "", "b"].filter (fun s => s ≠ "")) ∧
      serializeGitopsHashes (["a", "", "b"].foldl setGitopsHashOnEvent
          ({ id := "1" } : Event).gitopsHashes)
        = jsonStringArray (["a", "", "b"].filter (fun s => s ≠ "")) ∧
      "" ∉ ["a", "", "b"].filter (fun s => s ≠ "") :=
  updateEvent_gitopsHashes_array ["a", "", "b"] { id := "1" } rfl (by decide)

/-! ## Branch-deleted cleanup: `cloneTemplateDeleteAndPush` (C7) -/

/-- `events.DeleteEvent`. -/
structure DeleteEvent where
  env : String := ""
  app : String := ""
  triggeredBy : String := ""
  status : GitopsStatus := .success
  statusDesc : String := ""
  gitopsRepo : String := ""
  gitopsRef : String := ""
deriving Repr, DecidableEq

/-- Modelled from the spec: the git working copy the cleanup handler
mutates (`nativeGit.DelDir`, `NothingToCommit`, `Commit`, `Push` are
repository code outside `src/`).  `head` is the committed tree, `work` the
working tree, both as lists of file paths; a fresh write instance has
`work = head`. -/
structure GitWorkTree where
  head : List String := []
  work : List String := []
deriving Repr, DecidableEq

/-- Modelled from the spec: `nativeGit.DelDir` removes every file under
the directory from the working tree; deleting a directory that does not
exist changes nothing. -/
def delDir (wt : GitWorkTree) (dir : String) : GitWorkTree :=
  { wt with work := wt.work.filter (fun p => ¬ goHasPrefix p (dir ++ "/")) }

/-- Modelled from the spec: `nativeGit.NothingToCommit` is true iff the
working tree equals the committed tree. -/
def nothingToCommit (wt : GitWorkTree) : Bool :=
  wt.work == wt.head

/-- The outcome of `cloneTemplateDeleteAndPush`: the returned event and
error, the message a commit was created with (if any), and whether a push
happened. -/
structure DeleteOutcome where
  event : Option DeleteEvent
  err : Option String
  committedMessage : Option String
  pushed : Bool
deriving Repr, DecidableEq

/-- `worker.cloneTemplateDeleteAndPush`, with the git layer's results as
parameters (`instErr` for `InstanceForWrite`, `commitSha` for what
`nativeGit.Commit` returns, `pushErr` for `Push`): delete `<env>/<app>`
from the write instance, return `(nil, nil)` when the tree is unchanged,
otherwise commit with the delete message and, when the commit produced a
SHA, push and record it on the event. -/
def cloneTemplateDeleteAndPush (wt : GitWorkTree) (cleanupPolicy : Cleanup)
    (env triggeredBy : String) (gitopsEvent : DeleteEvent)
    (instErr : Option String) (commitSha : String) (pushErr : Option String) :
    DeleteOutcome :=
  match instErr with
  | some e =>
    { event := some { gitopsEvent with status := .failure, statusDesc := e },
      err := some e, committedMessage := none, pushed := false }
  | none =>
    let wt2 := delDir wt (env ++ "/" ++ cleanupPolicy.appToCleanup)
    if nothingToCommit wt2 then
      { event := none, err := none, committedMessage := none,
        pushed := false }
    else
      let gitMessage := "[GimletD delete] " ++ env ++ "/"
        ++ cleanupPolicy.appToCleanup ++ " deleted by " ++ triggeredBy
      if commitSha ≠ "" then
        match pushErr with
        | some e =>
          { event := some { gitopsEvent with
                              status := .failure,
                              statusDesc := e },
            err := some e, committedMessage := some gitMessage,
            pushed := false }
        | none =>
          { event := some { gitopsEvent with gitopsRef := commitSha },
            err := none, committedMessage := some gitMessage, pushed := true }
      else
        { event := some gitopsEvent, err := none,
          committedMessage := some gitMessage, pushed := false }

/-- C7: on a fresh write instance, when deleting `<env>/<app>` leaves the
working tree unchanged — in particular when the directory does not exist —
the handler returns `(nil, nil)`: no event, no commit, no push (and hence
nothing for the worker to record or broadcast); when the tree did change,
the commit message is exactly
`[GimletD delete] <env>/<app> deleted by <triggeredBy>`. -/
theorem cloneTemplateDeleteAndPush_spec (wt : GitWorkTree) (cp : Cleanup)
    (env triggeredBy : String) (ev : DeleteEvent) (commitSha : String)
    (pushErr : Option String) (hfresh : wt.work = wt.head) :
    (delDir wt (env ++ "/" ++ cp.appToCleanup) = wt →
      cloneTemplateDeleteAndPush wt cp env triggeredBy ev none commitSha
          pushErr
        = { event := none, err := none, committedMessage := none,
            pushed := false }) ∧
      (nothingToCommit (delDir wt (env ++ "/" ++ cp.appToCleanup)) = false →
        (cloneTemplateDeleteAndPush wt cp env triggeredBy ev none commitSha
            pushErr).committedMessage
          = some ("[GimletD delete] " ++ env ++ "/" ++ cp.appToCleanup
              ++ " deleted by " ++ triggeredBy)) := by
  constructor
  · intro hsame
    unfold cloneTemplateDeleteAndPush
    dsimp only
    rw [if_pos]
    rw [hsame, nothingToCommit, hfresh]
    simp
  · intro hchanged
    unfold cloneTemplateDeleteAndPush
    dsimp only
    rw [if_neg (by rw [hchanged]; simp)]
    by_cases hsha : commitSha ≠ ""
    · rw [if_pos hsha]
      cases pushErr <;> rfl
    · rw [if_neg hsha]

/-- Witness for C7 at concrete inputs: deleting the absent directory
`prod/my-app` changes nothing and yields `(nil, nil)`; deleting the
present one produces the exact delete commit message. -/
theorem cloneTemplateDeleteAndPush_spec_witness :
    (cloneTemplateDeleteAndPush
        { head := ["prod/other/app.yaml"], work := ["prod/other/app.yaml"] }
        { appToCleanup := "my-app", branch := "b" } "prod" "policy" {}
        none "sha1" none
      = { event := none, err := none, committedMessage := none,
          pushed := false }) ∧
      ((cloneTemplateDeleteAndPush
          { head := ["prod/my-app/app.yaml"], work := ["prod/my-app/app.yaml"] }
          { appToCleanup := "my-app", branch := "b" } "prod" "policy" {}
          none "sha1" none).committedMessage
        = some "[GimletD delete] prod/my-app deleted by policy") :=
  ⟨(cloneTemplateDeleteAndPush_spec _ _ _ _ _ _ _ rfl).1 (by decide),
   (cloneTemplateDeleteAndPush_spec _ _ _ _ _ _ _ rfl).2 (by decide)⟩
